import Mathlib

/-!
Shallow embedding of the screening/allocation core of `src/app/main.py`
(a FastAPI service brokering Kite Connect order placement).

Python floats are modelled as exact rationals (`ℚ`), Python `int` as `ℤ`.
Python's `int()` truncation toward zero is `pyInt`; Python's list slice
`l[:n]` (which accepts negative `n`) is `pySliceTo`.

The broker gateway is modelled by explicit inputs: the margins lookup result,
the instrument list fetch (paired with each instrument's historical-data fetch
result, `none` meaning the per-instrument fetch raised), and an order-placement
function returning `none` on failure.
-/

/-- An instrument row as returned by `kite.instruments(exchange="NSE")`:
the fields read by `find_penny_stocks` (`main.py` lines 196-226). -/
structure Instrument where
  instrument_token : ℤ
  tradingsymbol : String
  segment : String
  last_price : ℚ
deriving DecidableEq

/-- One bar of `kite.historical_data`: the fields read by `find_penny_stocks`
(`main.py` lines 213, 217). -/
structure HistPoint where
  close : ℚ
  volume : ℚ
deriving DecidableEq

/-- The request body model `AIOrderConfig` (`main.py` lines 44-48), with its
default values. Pydantic validates types only, so `max_stocks` is any integer
and the money fields any rationals. -/
structure AIOrderConfig where
  max_investment : ℚ := 10000
  max_stocks : ℤ := 5
  penny_stock_threshold : ℚ := 50
  min_growth_percent : ℚ := 5
deriving DecidableEq

/-- The dict appended to `penny_stocks` (`main.py` lines 221-226). -/
structure PennyStock where
  tradingsymbol : String
  last_price : ℚ
  growth_percent : ℚ
  avg_volume : ℚ
deriving DecidableEq

/-- Python `int(x)` on a rational: truncation toward zero
(`Int.tdiv` truncates toward zero; the denominator is positive). -/
def pyInt (q : ℚ) : ℤ :=
  q.num.tdiv q.den

/-- Python list slice `l[:n]` for an arbitrary integer `n`: for `n ≥ 0` the
first `n` elements, for `n < 0` all but the last `|n|` elements (clamped). -/
def pySliceTo {α : Type} (n : ℤ) (l : List α) : List α :=
  if 0 ≤ n then l.take n.toNat else l.take (l.length - (-n).toNat)

/-- Line 214 of `main.py`:
`growth_percent = ((prices[-1] - prices[0]) / prices[0]) * 100 if prices[0] != 0 else 0`. -/
def growthPercent (prices : List ℚ) : ℚ :=
  if prices.headD 0 ≠ 0 then ((prices.getLastD 0 - prices.headD 0) / prices.headD 0) * 100
  else 0

/-- Line 218 of `main.py`: `avg_volume = np.mean(volumes)`, the exact mean. -/
def avgVolume (volumes : List ℚ) : ℚ :=
  volumes.sum / (volumes.length : ℚ)

/-- One iteration of the `for instrument in instruments[:100]` loop of
`find_penny_stocks` (`main.py` lines 196-229). The second component of `row`
is the outcome of the `kite.historical_data` call for that instrument
(`none` = the call raised, so the `except` at line 227 skips the row).
Returns the appended candidate, or `none` when the row is skipped. -/
def screenInstrument (config : AIOrderConfig) (row : Instrument × Option (List HistPoint)) :
    Option PennyStock :=
  let instrument := row.1
  if instrument.segment ≠ "NSE-EQ" ∨ instrument.last_price > config.penny_stock_threshold then
    none
  else
    match row.2 with
    | none => none
    | some historical =>
      if historical.length < 5 then none
      else
        let prices := historical.map (·.close)
        let growth_percent := growthPercent prices
        let volumes := historical.map (·.volume)
        let avg_volume := avgVolume volumes
        if growth_percent ≥ config.min_growth_percent ∧ avg_volume > 10000 then
          some ⟨instrument.tradingsymbol, instrument.last_price, growth_percent, avg_volume⟩
        else none

/-- Sort order used at line 232 of `main.py`:
`sorted(penny_stocks, key=lambda x: x["growth_percent"], reverse=True)`,
i.e. descending `growth_percent`. -/
def growthGE (a b : PennyStock) : Prop :=
  b.growth_percent ≤ a.growth_percent

instance : DecidableRel growthGE :=
  fun a b => inferInstanceAs (Decidable (b.growth_percent ≤ a.growth_percent))

instance : IsTotal PennyStock growthGE :=
  ⟨fun a b => le_total b.growth_percent a.growth_percent⟩

instance : IsTrans PennyStock growthGE :=
  ⟨fun _ _ _ h1 h2 => le_trans h2 h1⟩

/-- The body of `find_penny_stocks` (`main.py` lines 191-234) after the
instrument list has been fetched successfully. `rows` pairs each fetched
instrument with the outcome of its historical-data call. Python's stable
`sorted(..., reverse=True)` is a stable sort by descending `growth_percent`. -/
def find_penny_stocks (config : AIOrderConfig)
    (rows : List (Instrument × Option (List HistPoint))) : List PennyStock :=
  let penny_stocks := (rows.take 100).filterMap (screenInstrument config)
  pySliceTo config.max_stocks (penny_stocks.insertionSort growthGE)

/-- An entry of `orders_placed` (`main.py` lines 285-289). -/
structure OrderPlaced where
  tradingsymbol : String
  quantity : ℤ
  order_id : ℕ
deriving DecidableEq

/-- Observable outcome of a `POST /api/ai-place-orders` request: the HTTP
status, the `orders` array of the success body, and the trace of
`kite.place_order` invocations attempted (symbol, quantity). -/
structure AiOrdersResponse where
  status : ℕ
  orders : List OrderPlaced
  attempted : List (String × ℤ)
deriving DecidableEq

/-- The `for stock in penny_stocks` loop of `ai_place_orders`
(`main.py` lines 266-293). `place sym qty` is the gateway call
(`none` = it raised; the `except` at line 291 continues with the next stock).
A `ZeroDivisionError` from `last_price == 0` is also caught by that `except`
and skips the stock, which coincides with `pyInt (x / 0) = 0 < 1`.
Returns the orders placed and the trace of attempted gateway calls. -/
def placeLoop (place : String → ℤ → Option ℕ) (investment_per_stock : ℚ) :
    List PennyStock → List OrderPlaced × List (String × ℤ)
  | [] => ([], [])
  | stock :: rest =>
    let quantity := pyInt (investment_per_stock / stock.last_price)
    if quantity < 1 then placeLoop place investment_per_stock rest
    else
      let restResult := placeLoop place investment_per_stock rest
      match place stock.tradingsymbol quantity with
      | some order_id =>
        (⟨stock.tradingsymbol, quantity, order_id⟩ :: restResult.1,
          (stock.tradingsymbol, quantity) :: restResult.2)
      | none => (restResult.1, (stock.tradingsymbol, quantity) :: restResult.2)

/-- The endpoint `ai_place_orders` (`main.py` lines 240-305).

Everything after the 401 check sits inside one `try` whose handler
(line 303) is `except Exception`, and FastAPI's `HTTPException` is a subclass
of `Exception`: every `raise HTTPException(400/404/...)` inside the `try`
(insufficient funds at line 251, no candidates at line 260, no orders placed
at line 297), every `HTTPException(500)` escaping `check_available_funds` or
`find_penny_stocks`, and a `ZeroDivisionError` when
`min(config.max_stocks, len(penny_stocks)) == 0` at line 263, is caught there
and re-raised as status 500. Hence all failure paths inside the `try` are
modelled as status 500.

Inputs model the gateway: `authenticated` is `KITE_ID in session_storage`;
`margins` the funds lookup (`none` = it raised); `fetch` the instrument-list
fetch, each instrument paired with its historical-data outcome
(`none` = the list fetch raised); `place` the order call. -/
def aiPlaceOrders (authenticated : Bool) (margins : Option ℚ)
    (fetch : Option (List (Instrument × Option (List HistPoint))))
    (place : String → ℤ → Option ℕ) (config : AIOrderConfig) : AiOrdersResponse :=
  if ¬ authenticated then ⟨401, [], []⟩
  else
    match margins with
    | none => ⟨500, [], []⟩
    | some available_funds =>
      if available_funds < 1000 then ⟨500, [], []⟩
      else
        let max_investment := min config.max_investment (available_funds * (4 / 5 : ℚ))
        match fetch with
        | none => ⟨500, [], []⟩
        | some rows =>
          let penny_stocks := find_penny_stocks config rows
          if penny_stocks = [] then ⟨500, [], []⟩
          else
            let d : ℤ := min config.max_stocks (penny_stocks.length : ℤ)
            if d = 0 then ⟨500, [], []⟩
            else
              let investment_per_stock := max_investment / (d : ℚ)
              let result := placeLoop place investment_per_stock penny_stocks
              if result.1 = [] then ⟨500, [], result.2⟩
              else ⟨200, result.1, result.2⟩

/-- Two historical series that agree on closing prices, total traded volume
and length. Everything `find_penny_stocks` reads from a volume series is its
mean, so this is enough to make the engine treat the series identically. -/
def VolEquiv (v1 v2 : List HistPoint) : Prop :=
  v1.map (·.close) = v2.map (·.close) ∧
  (v1.map (·.volume)).sum = (v2.map (·.volume)).sum ∧
  v1.length = v2.length

/-- Lifts `VolEquiv` to historical-fetch outcomes. -/
def FetchEquiv : Option (List HistPoint) → Option (List HistPoint) → Prop
  | none, none => True
  | some v1, some v2 => VolEquiv v1 v2
  | _, _ => False

/-- Two fetched rows with the same instrument whose series are `VolEquiv`. -/
def RowEquiv (r1 r2 : Instrument × Option (List HistPoint)) : Prop :=
  r1.1 = r2.1 ∧ FetchEquiv r1.2 r2.2

/-! Concrete fixtures: small instrument rows and configurations used to
evaluate the engine on explicit inputs. `histA` is the spec's own scenario
(closes 10,9,8,9,11 → growth 10%). -/

/-- NSE-EQ instrument at price 10 (the spec's scenario instrument). -/
def instA : Instrument := ⟨1, "AAA", "NSE-EQ", 10⟩

/-- Five daily bars, closes 10,9,8,9,11 (growth 10%), volume 20000 each. -/
def histA : List HistPoint :=
  [⟨10, 20000⟩, ⟨9, 20000⟩, ⟨8, 20000⟩, ⟨9, 20000⟩, ⟨11, 20000⟩]

/-- The candidate `find_penny_stocks` derives from `instA`/`histA`. -/
def stockA : PennyStock := ⟨"AAA", 10, 10, 20000⟩

/-- NSE-EQ instrument at price 20 whose history shows 100% growth. -/
def instB : Instrument := ⟨2, "BBB", "NSE-EQ", 20⟩

/-- Five daily bars, closes 10,10,10,10,20 (growth 100%), volume 20000 each. -/
def histB : List HistPoint :=
  [⟨10, 20000⟩, ⟨10, 20000⟩, ⟨10, 20000⟩, ⟨10, 20000⟩, ⟨20, 20000⟩]

/-- The candidate derived from `instB`/`histB`. -/
def stockB : PennyStock := ⟨"BBB", 20, 100, 20000⟩

/-- NSE-EQ instrument whose `last_price` is 0. -/
def instZ : Instrument := ⟨6, "ZZZ", "NSE-EQ", 0⟩

/-- NSE-EQ instrument whose `last_price` is negative. -/
def instY : Instrument := ⟨7, "YYY", "NSE-EQ", -5⟩

/-- NSE-EQ instrument at price 10 used for the volume-boundary runs. -/
def instT : Instrument := ⟨5, "TTT", "NSE-EQ", 10⟩

/-- Bars with 100% growth and volume exactly 10000 every day (mean 10000). -/
def histT0 : List HistPoint :=
  [⟨10, 10000⟩, ⟨10, 10000⟩, ⟨10, 10000⟩, ⟨10, 10000⟩, ⟨20, 10000⟩]

/-- Bars with 100% growth and volume 10001 every day (mean 10001). -/
def histT1 : List HistPoint :=
  [⟨10, 10001⟩, ⟨10, 10001⟩, ⟨10, 10001⟩, ⟨10, 10001⟩, ⟨20, 10001⟩]

/-- A configuration as permissive as the fields of `AIOrderConfig` allow:
huge price threshold, hugely negative growth threshold, many slots. -/
def cfgLoose : AIOrderConfig :=
  { max_investment := 10000, max_stocks := 100,
    penny_stock_threshold := 1000000, min_growth_percent := -1000 }

/-- A configuration whose `max_stocks` is the (pydantic-accepted) integer -1. -/
def cfgN : AIOrderConfig := { max_stocks := -1 }

/-- Two rows that both pass the screen, growths 10% and 100%. -/
def rowsN : List (Instrument × Option (List HistPoint)) :=
  [(instA, some histA), (instB, some histB)]

/-- The C8 scenario configuration: budget cap 10000, 5 slots, price
threshold 3000 so that an instrument priced 2700 passes the screen. -/
def cfgC : AIOrderConfig :=
  { max_investment := 10000, max_stocks := 5, penny_stock_threshold := 3000,
    min_growth_percent := 5 }

/-- NSE-EQ instrument priced 2900 (passes the screen under `cfgC` only). -/
def instC : Instrument := ⟨3, "CCC", "NSE-EQ", 2900⟩

/-- Three NSE-EQ instruments priced 2700, 100 and 50 with descending growths
(100%, 50%, 20%): the C8 scenario candidates. -/
def rows8 : List (Instrument × Option (List HistPoint)) :=
  [(⟨11, "S2700", "NSE-EQ", 2700⟩, some histB),
   (⟨12, "S100", "NSE-EQ", 100⟩,
     some [⟨10, 20000⟩, ⟨10, 20000⟩, ⟨10, 20000⟩, ⟨10, 20000⟩, ⟨15, 20000⟩]),
   (⟨13, "S50", "NSE-EQ", 50⟩,
     some [⟨10, 20000⟩, ⟨10, 20000⟩, ⟨10, 20000⟩, ⟨10, 20000⟩, ⟨12, 20000⟩])]

/-- NSE-EQ instrument at price 10 used for the volume-trend runs. -/
def instV : Instrument := ⟨4, "VVV", "NSE-EQ", 10⟩

/-- Bars with volumes 30000,40000,20000,50000,40000: first 30000, last 40000
(spec volume trend 4/3), mean 36000. -/
def histV1 : List HistPoint :=
  [⟨10, 30000⟩, ⟨10, 40000⟩, ⟨10, 20000⟩, ⟨10, 50000⟩, ⟨20, 40000⟩]

/-- Bars with the same closes and the same total volume, but first volume 0
(spec volume trend 1), mean 36000. -/
def histV3 : List HistPoint :=
  [⟨10, 0⟩, ⟨10, 90000⟩, ⟨10, 30000⟩, ⟨10, 30000⟩, ⟨20, 30000⟩]

/-- Modelled from the spec: the volume trend `last_volume / first_volume`,
"defined as 1 when `first_volume == 0`". No such computation exists anywhere
in `src/app/main.py`; this definition follows the spec's words and is used
only to compare the spec's claim against the engine's actual behaviour. -/
def specVolumeTrend (volumes : List ℚ) : ℚ :=
  if volumes.headD 0 = 0 then 1 else volumes.getLastD 0 / volumes.headD 0

/-- The Python slice `l[:n]` always yields a sublist of `l`. -/
theorem pySliceTo_sublist {α : Type} (n : ℤ) (l : List α) : (pySliceTo n l).Sublist l := by
  unfold pySliceTo
  split_ifs <;> exact List.take_sublist _ _

/-- Every stock returned by `find_penny_stocks` was produced by
`screenInstrument` from one of the first 100 fetched rows. -/
theorem mem_find_penny_stocks {config : AIOrderConfig}
    {rows : List (Instrument × Option (List HistPoint))} {s : PennyStock}
    (h : s ∈ find_penny_stocks config rows) :
    ∃ row ∈ rows.take 100, screenInstrument config row = some s := by
  unfold find_penny_stocks at h
  have h2 : s ∈ ((rows.take 100).filterMap (screenInstrument config)).insertionSort growthGE :=
    List.Sublist.mem h (pySliceTo_sublist _ _)
  have h3 : s ∈ (rows.take 100).filterMap (screenInstrument config) :=
    ((List.perm_insertionSort growthGE _).mem_iff).mp h2
  exact List.mem_filterMap.mp h3

/-- Inversion of one screening-loop iteration: everything that is true of a row
that `screenInstrument` turns into a candidate. -/
theorem screenInstrument_eq_some {config : AIOrderConfig}
    {row : Instrument × Option (List HistPoint)} {s : PennyStock}
    (h : screenInstrument config row = some s) :
    row.1.segment = "NSE-EQ" ∧
    s.tradingsymbol = row.1.tradingsymbol ∧
    s.last_price = row.1.last_price ∧
    s.last_price ≤ config.penny_stock_threshold ∧
    ∃ historical : List HistPoint, row.2 = some historical ∧ 5 ≤ historical.length ∧
      s.growth_percent = growthPercent (historical.map (·.close)) ∧
      s.avg_volume = avgVolume (historical.map (·.volume)) ∧
      config.min_growth_percent ≤ s.growth_percent ∧
      10000 < s.avg_volume := by
  obtain ⟨instrument, fetch⟩ := row
  simp only [screenInstrument] at h ⊢
  by_cases h1 : instrument.segment ≠ "NSE-EQ" ∨ instrument.last_price > config.penny_stock_threshold
  · rw [if_pos h1] at h
    exact absurd h (by simp)
  · rw [if_neg h1] at h
    push_neg at h1
    obtain ⟨hseg, hprice⟩ := h1
    rcases fetch with _ | historical
    · exact absurd h (by simp)
    · simp only [] at h
      by_cases h2 : historical.length < 5
      · rw [if_pos h2] at h
        exact absurd h (by simp)
      · rw [if_neg h2] at h
        by_cases h3 : growthPercent (historical.map (·.close)) ≥ config.min_growth_percent ∧
            avgVolume (historical.map (·.volume)) > 10000
        · rw [if_pos h3] at h
          obtain ⟨hg, hv⟩ := h3
          injection h with h
          subst h
          exact ⟨hseg, rfl, rfl, hprice, historical, rfl, le_of_not_lt h2, rfl, rfl, hg, hv⟩
        · rw [if_neg h3] at h
          exact absurd h (by simp)

/-- The `growth_percent` expression at line 214, rephrased through
`List.head` / `List.getLast` for a nonempty price list. -/
theorem growthPercent_spec (prices : List ℚ) (hne : prices ≠ []) :
    (prices.head hne = 0 → growthPercent prices = 0) ∧
    (prices.head hne ≠ 0 →
      growthPercent prices = (prices.getLast hne - prices.head hne) / prices.head hne * 100) := by
  have hh : prices.headD 0 = prices.head hne := by
    rw [List.headD_eq_head?, List.head?_eq_head hne]
    rfl
  have hl : prices.getLastD 0 = prices.getLast hne := by
    rw [List.getLastD_eq_getLast?, List.getLast?_eq_getLast _ hne]
    rfl
  constructor
  · intro h0
    rw [growthPercent, hh, hl, if_neg (by simp [h0])]
  · intro h0
    rw [growthPercent, hh, hl, if_pos h0]

/-- Python truncation agrees with the floor on nonnegative rationals. -/
theorem pyInt_eq_floor {q : ℚ} (h : 0 ≤ q) : pyInt q = ⌊q⌋ := by
  rw [Rat.floor_def, pyInt]
  exact Int.tdiv_eq_ediv (Rat.num_nonneg.mpr h) (Int.ofNat_nonneg _)

/-- Python truncation of a negative rational is never positive. -/
theorem pyInt_nonpos {q : ℚ} (h : q < 0) : pyInt q ≤ 0 := by
  have hn : 0 ≤ -q.num := by
    have := Rat.num_nonneg.not.mpr (not_le.mpr h)
    omega
  have h2 : (- q.num).tdiv q.den = -(q.num.tdiv q.den) := by
    rw [Int.neg_tdiv]
  have h3 : 0 ≤ (- q.num).tdiv q.den := Int.tdiv_nonneg hn (Int.ofNat_nonneg _)
  rw [pyInt]
  omega

/-- A Python-truncated share count reaches 1 exactly when the floor does. -/
theorem one_le_pyInt_iff (q : ℚ) : 1 ≤ pyInt q ↔ 1 ≤ ⌊q⌋ := by
  rcases le_or_lt 0 q with h | h
  · rw [pyInt_eq_floor h]
  · constructor
    · intro h1
      exact absurd (le_trans h1 (pyInt_nonpos h)) (by norm_num)
    · intro h1
      have : (1 : ℚ) ≤ q := by exact_mod_cast Int.le_floor.mp h1
      exact absurd (lt_of_le_of_lt this h) (by norm_num)

/-- Whenever the floor-based share count is at least 1, Python's `int()`
computes exactly that floor. -/
theorem pyInt_eq_floor_of_one_le {q : ℚ} (h : 1 ≤ ⌊q⌋) : pyInt q = ⌊q⌋ := by
  have h1 : (1 : ℚ) ≤ q := by exact_mod_cast Int.le_floor.mp h
  exact pyInt_eq_floor (le_trans (by norm_num) h1)

/-- The order loop's successful placements, written as a filter-map over the
candidate list: a stock contributes exactly when its quantity reaches 1 and
the gateway call succeeds. -/
theorem placeLoop_orders (place : String → ℤ → Option ℕ) (a : ℚ) (l : List PennyStock) :
    (placeLoop place a l).1 = l.filterMap (fun s =>
      let q := pyInt (a / s.last_price)
      if 1 ≤ q then (place s.tradingsymbol q).map
        (fun order_id => ⟨s.tradingsymbol, q, order_id⟩) else none) := by
  induction l with
  | nil => rfl
  | cons stock rest ih =>
    by_cases hq : pyInt (a / stock.last_price) < 1
    · rw [placeLoop, if_pos hq, List.filterMap_cons]
      simp only [if_neg (not_le.mpr hq)]
      exact ih
    · rw [placeLoop, if_neg hq, List.filterMap_cons]
      simp only [if_pos (not_lt.mp hq)]
      rcases hp : place stock.tradingsymbol (pyInt (a / stock.last_price)) with _ | oid
      · simp only [hp, Option.map_none']
        exact ih
      · simp only [hp, Option.map_some']
        rw [← ih]

/-- The order loop's trace of attempted gateway calls, written as a filter-map:
a stock is attempted exactly when its quantity reaches 1, independently of
whether the gateway call then succeeds. -/
theorem placeLoop_attempted (place : String → ℤ → Option ℕ) (a : ℚ) (l : List PennyStock) :
    (placeLoop place a l).2 = l.filterMap (fun s =>
      let q := pyInt (a / s.last_price)
      if 1 ≤ q then some (s.tradingsymbol, q) else none) := by
  induction l with
  | nil => rfl
  | cons stock rest ih =>
    by_cases hq : pyInt (a / stock.last_price) < 1
    · rw [placeLoop, if_pos hq, List.filterMap_cons]
      simp only [if_neg (not_le.mpr hq)]
      exact ih
    · rw [placeLoop, if_neg hq, List.filterMap_cons]
      simp only [if_pos (not_lt.mp hq)]
      rcases hp : place stock.tradingsymbol (pyInt (a / stock.last_price)) with _ | oid
      · simp only [hp]
        rw [← ih]
      · simp only [hp]
        rw [← ih]

/-- A run of `ai_place_orders` that reaches the order loop: authenticated,
funds at least 1000, candidates found, and a nonzero allocation divisor.
The response is determined by the loop over the candidates with the equal
per-stock allocation of line 263. -/
theorem aiPlaceOrders_run (config : AIOrderConfig) (funds : ℚ)
    (rows : List (Instrument × Option (List HistPoint))) (place : String → ℤ → Option ℕ)
    (hf : ¬ funds < 1000) (hne : find_penny_stocks config rows ≠ [])
    (hd : min config.max_stocks ((find_penny_stocks config rows).length : ℤ) ≠ 0) :
    aiPlaceOrders true (some funds) (some rows) place config =
      (let penny := find_penny_stocks config rows
       let ips := min config.max_investment (funds * (4 / 5 : ℚ)) /
         ((min config.max_stocks (penny.length : ℤ) : ℤ) : ℚ)
       let res := placeLoop place ips penny
       if res.1 = [] then ⟨500, [], res.2⟩ else ⟨200, res.1, res.2⟩) := by
  simp only [aiPlaceOrders]
  rw [if_neg (by simp), if_neg hf, if_neg hne, if_neg hd]

/-- The screening step cannot distinguish `RowEquiv` rows. -/
theorem screenInstrument_congr {config : AIOrderConfig}
    {r1 r2 : Instrument × Option (List HistPoint)} (h : RowEquiv r1 r2) :
    screenInstrument config r1 = screenInstrument config r2 := by
  obtain ⟨i1, f1⟩ := r1
  obtain ⟨i2, f2⟩ := r2
  obtain ⟨hi, hf⟩ := h
  simp only at hi hf
  subst hi
  rcases f1 with _ | v1 <;> rcases f2 with _ | v2
  · rfl
  · exact absurd hf (by simp [FetchEquiv])
  · exact absurd hf (by simp [FetchEquiv])
  · have hveq : VolEquiv v1 v2 := hf
    obtain ⟨hc, hs, hl⟩ := hveq
    simp only [screenInstrument]
    by_cases hcond : i1.segment ≠ "NSE-EQ" ∨ i1.last_price > config.penny_stock_threshold
    · rw [if_pos hcond, if_pos hcond]
    · rw [if_neg hcond, if_neg hcond]
      have hg : growthPercent (v1.map (·.close)) = growthPercent (v2.map (·.close)) := by
        rw [hc]
      have hv : avgVolume (v1.map (·.volume)) = avgVolume (v2.map (·.volume)) := by
        unfold avgVolume
        rw [hs, List.length_map, List.length_map, hl]
      rw [hl, hg, hv]

/-- Congruence of `filterMap` along a relation the function cannot see. -/
theorem filterMap_congr_forall₂ {α β : Type} {R : α → α → Prop} {f : α → Option β}
    (hfun : ∀ a b, R a b → f a = f b) :
    ∀ {l1 l2 : List α}, List.Forall₂ R l1 l2 → l1.filterMap f = l2.filterMap f := by
  intro l1 l2 h
  induction h with
  | nil => rfl
  | cons ha _ ih => rw [List.filterMap_cons, List.filterMap_cons, hfun _ _ ha, ih]

theorem screen_instA : screenInstrument {} (instA, some histA) = some stockA := by
  norm_num [screenInstrument, growthPercent, avgVolume, instA, histA, stockA]

theorem screen_instB : screenInstrument {} (instB, some histB) = some stockB := by
  norm_num [screenInstrument, growthPercent, avgVolume, instB, histB, stockB]

theorem find_rowsA : find_penny_stocks {} [(instA, some histA)] = [stockA] := by
  norm_num [find_penny_stocks, pySliceTo, List.insertionSort, List.orderedInsert, growthGE,
    List.filterMap_cons, screen_instA]

theorem screen_instZ : screenInstrument {} (instZ, some histB) = some ⟨"ZZZ", 0, 100, 20000⟩ := by
  norm_num [screenInstrument, growthPercent, avgVolume, instZ, histB]

theorem screen_instY : screenInstrument {} (instY, some histB) = some ⟨"YYY", -5, 100, 20000⟩ := by
  norm_num [screenInstrument, growthPercent, avgVolume, instY, histB]

theorem find_rowsZ :
    find_penny_stocks {} [(instZ, some histB)] = [⟨"ZZZ", 0, 100, 20000⟩] := by
  norm_num [find_penny_stocks, pySliceTo, List.insertionSort, List.orderedInsert, growthGE,
    List.filterMap_cons, screen_instZ]

theorem find_rowsY :
    find_penny_stocks {} [(instY, some histB)] = [⟨"YYY", -5, 100, 20000⟩] := by
  norm_num [find_penny_stocks, pySliceTo, List.insertionSort, List.orderedInsert, growthGE,
    List.filterMap_cons, screen_instY]

theorem find_rowsT0 : find_penny_stocks {} [(instT, some histT0)] = [] := by
  norm_num [find_penny_stocks, pySliceTo, List.insertionSort, List.orderedInsert, growthGE,
    List.filterMap_cons, screenInstrument, growthPercent, avgVolume, instT, histT0]

theorem find_rowsT0_loose : find_penny_stocks cfgLoose [(instT, some histT0)] = [] := by
  norm_num [find_penny_stocks, pySliceTo, List.insertionSort, List.orderedInsert, growthGE,
    List.filterMap_cons, screenInstrument, growthPercent, avgVolume, instT, histT0, cfgLoose]

theorem find_rowsT1 :
    find_penny_stocks {} [(instT, some histT1)] = [⟨"TTT", 10, 100, 10001⟩] := by
  have h1 : screenInstrument {} (instT, some histT1) = some ⟨"TTT", 10, 100, 10001⟩ := by
    norm_num [screenInstrument, growthPercent, avgVolume, instT, histT1]
  norm_num [find_penny_stocks, pySliceTo, List.insertionSort, List.orderedInsert, growthGE,
    List.filterMap_cons, h1]

theorem screen_instA_cfgN : screenInstrument cfgN (instA, some histA) = some stockA := by
  norm_num [screenInstrument, growthPercent, avgVolume, instA, histA, stockA, cfgN]

theorem screen_instB_cfgN : screenInstrument cfgN (instB, some histB) = some stockB := by
  norm_num [screenInstrument, growthPercent, avgVolume, instB, histB, stockB, cfgN]

theorem find_rowsN : find_penny_stocks cfgN rowsN = [stockB] := by
  norm_num [find_penny_stocks, pySliceTo, List.insertionSort, List.orderedInsert, growthGE,
    List.filterMap_cons, screen_instA_cfgN, screen_instB_cfgN, rowsN, stockA, stockB,
    show cfgN.max_stocks = -1 from rfl]

theorem screen_instC : screenInstrument cfgC (instC, some histB) = some ⟨"CCC", 2900, 100, 20000⟩ := by
  norm_num [screenInstrument, growthPercent, avgVolume, instC, histB, cfgC]

theorem find_rowsC :
    find_penny_stocks cfgC [(instC, some histB)] = [⟨"CCC", 2900, 100, 20000⟩] := by
  norm_num [find_penny_stocks, pySliceTo, List.insertionSort, List.orderedInsert, growthGE,
    List.filterMap_cons, screen_instC, show cfgC.max_stocks = 5 from rfl]

theorem find_rows8 :
    find_penny_stocks cfgC rows8 =
      [⟨"S2700", 2700, 100, 20000⟩, ⟨"S100", 100, 50, 20000⟩, ⟨"S50", 50, 20, 20000⟩] := by
  have h1 : screenInstrument cfgC (⟨11, "S2700", "NSE-EQ", 2700⟩, some histB) =
      some ⟨"S2700", 2700, 100, 20000⟩ := by
    norm_num [screenInstrument, growthPercent, avgVolume, histB, cfgC]
  have h2 : screenInstrument cfgC (⟨12, "S100", "NSE-EQ", (100 : ℚ)⟩,
      some [⟨10, 20000⟩, ⟨10, 20000⟩, ⟨10, 20000⟩, ⟨10, 20000⟩, ⟨15, 20000⟩]) =
      some ⟨"S100", 100, 50, 20000⟩ := by
    norm_num [screenInstrument, growthPercent, avgVolume, cfgC]
  have h3 : screenInstrument cfgC (⟨13, "S50", "NSE-EQ", (50 : ℚ)⟩,
      some [⟨10, 20000⟩, ⟨10, 20000⟩, ⟨10, 20000⟩, ⟨10, 20000⟩, ⟨12, 20000⟩]) =
      some ⟨"S50", 50, 20, 20000⟩ := by
    norm_num [screenInstrument, growthPercent, avgVolume, cfgC]
  norm_num [find_penny_stocks, pySliceTo, List.insertionSort, List.orderedInsert, growthGE,
    List.filterMap_cons, rows8, h1, h2, h3, show cfgC.max_stocks = 5 from rfl]

theorem find_rowsV1 :
    find_penny_stocks {} [(instV, some histV1)] = [⟨"VVV", 10, 100, 36000⟩] := by
  have h1 : screenInstrument {} (instV, some histV1) = some ⟨"VVV", 10, 100, 36000⟩ := by
    norm_num [screenInstrument, growthPercent, avgVolume, instV, histV1]
  norm_num [find_penny_stocks, pySliceTo, List.insertionSort, List.orderedInsert, growthGE,
    List.filterMap_cons, h1]

theorem find_rowsV3 :
    find_penny_stocks {} [(instV, some histV3)] = [⟨"VVV", 10, 100, 36000⟩] := by
  have h1 : screenInstrument {} (instV, some histV3) = some ⟨"VVV", 10, 100, 36000⟩ := by
    norm_num [screenInstrument, growthPercent, avgVolume, instV, histV3]
  norm_num [find_penny_stocks, pySliceTo, List.insertionSort, List.orderedInsert, growthGE,
    List.filterMap_cons, h1]

/-! Claim theorems. -/

/-- C2, counterexample: the price filter at line 197 only rejects
`last_price > threshold`; it has no positivity requirement. With the default
configuration, an NSE-EQ instrument whose `last_price` is 0, and one whose
`last_price` is -5, both become candidates. -/
theorem C2_counterexample :
    (find_penny_stocks {} [(instZ, some histB)]).map (fun s => s.last_price) = [0] ∧
    (find_penny_stocks {} [(instY, some histB)]).map (fun s => s.last_price) = [-5] := by
  rw [find_rowsZ, find_rowsY]
  norm_num

/-- C2 (amended): an instrument passes the price filter iff its segment is
`"NSE-EQ"` and its latest price is at or below `penny_stock_threshold`; there
is no positivity check, so every candidate satisfies only the upper bound. -/
theorem C2_price_filter (config : AIOrderConfig)
    (rows : List (Instrument × Option (List HistPoint))) (s : PennyStock)
    (h : s ∈ find_penny_stocks config rows) :
    s.last_price ≤ config.penny_stock_threshold := by
  obtain ⟨row, _, he⟩ := mem_find_penny_stocks h
  exact (screenInstrument_eq_some he).2.2.2.1

theorem C2_price_filter_witness :
    stockA ∈ find_penny_stocks {} [(instA, some histA)] ∧
    stockA.last_price ≤ ({} : AIOrderConfig).penny_stock_threshold := by
  have h : stockA ∈ find_penny_stocks {} [(instA, some histA)] := by
    rw [find_rowsA]
    exact List.mem_singleton.mpr rfl
  exact ⟨h, C2_price_filter {} [(instA, some histA)] stockA h⟩

/-- C3, counterexample: the volume filter at line 220 is the hard-coded strict
comparison `avg_volume > 10000`; `AIOrderConfig` has no `min_avg_volume`
field. A row with average volume exactly 10000 (which `>=` would admit) is
rejected under the default configuration and under a maximally permissive
configuration alike, while average volume 10001 is admitted. -/
theorem C3_counterexample :
    find_penny_stocks {} [(instT, some histT0)] = [] ∧
    find_penny_stocks cfgLoose [(instT, some histT0)] = [] ∧
    find_penny_stocks {} [(instT, some histT1)] ≠ [] := by
  refine ⟨find_rowsT0, find_rowsT0_loose, ?_⟩
  rw [find_rowsT1]
  simp

/-- C3 (amended): an instrument with sufficient history becomes a candidate
only if its average volume over the window is strictly greater than 10000, a
constant hard-coded at line 220; no configuration field takes part in this
comparison. -/
theorem C3_volume_filter (config : AIOrderConfig)
    (rows : List (Instrument × Option (List HistPoint))) (s : PennyStock)
    (h : s ∈ find_penny_stocks config rows) :
    10000 < s.avg_volume := by
  obtain ⟨row, _, he⟩ := mem_find_penny_stocks h
  obtain ⟨_, _, _, _, _, _, _, _, _, _, hv⟩ := screenInstrument_eq_some he
  exact hv

theorem C3_volume_filter_witness :
    stockA ∈ find_penny_stocks {} [(instA, some histA)] ∧ (10000 : ℚ) < stockA.avg_volume := by
  have h : stockA ∈ find_penny_stocks {} [(instA, some histA)] := by
    rw [find_rowsA]
    exact List.mem_singleton.mpr rfl
  exact ⟨h, C3_volume_filter {} [(instA, some histA)] stockA h⟩

/-- C5: every close series a candidate is built from yields the documented
growth formula: `growth_percent = (last - first) / first * 100`, and 0 with no
division fault when the first close is 0 (line 214). -/
theorem C5_growth_formula (config : AIOrderConfig)
    (rows : List (Instrument × Option (List HistPoint))) (s : PennyStock)
    (h : s ∈ find_penny_stocks config rows) :
    ∃ historical : List HistPoint,
      (∃ row ∈ rows.take 100, row.2 = some historical) ∧ 5 ≤ historical.length ∧
      ∃ hne : historical.map (·.close) ≠ [],
        ((historical.map (·.close)).head hne = 0 → s.growth_percent = 0) ∧
        ((historical.map (·.close)).head hne ≠ 0 →
          s.growth_percent =
            ((historical.map (·.close)).getLast hne - (historical.map (·.close)).head hne) /
              (historical.map (·.close)).head hne * 100) := by
  obtain ⟨row, hrow, he⟩ := mem_find_penny_stocks h
  obtain ⟨_, _, _, _, historical, hfetch, hlen, hg, _, _, _⟩ := screenInstrument_eq_some he
  have hne : historical.map (·.close) ≠ [] := by
    have : (historical.map (·.close)).length = historical.length := List.length_map _ _
    intro hnil
    rw [hnil] at this
    simp at this
    omega
  obtain ⟨h0, hform⟩ := growthPercent_spec (historical.map (·.close)) hne
  exact ⟨historical, ⟨row, hrow, hfetch⟩, hlen, hne,
    fun hz => by rw [hg]; exact h0 hz,
    fun hz => by rw [hg]; exact hform hz⟩

theorem C5_growth_formula_witness :
    stockA ∈ find_penny_stocks {} [(instA, some histA)] ∧
    ∃ historical : List HistPoint,
      (∃ row ∈ ([(instA, some histA)] :
          List (Instrument × Option (List HistPoint))).take 100, row.2 = some historical) ∧
      5 ≤ historical.length ∧
      ∃ hne : historical.map (·.close) ≠ [],
        ((historical.map (·.close)).head hne = 0 → stockA.growth_percent = 0) ∧
        ((historical.map (·.close)).head hne ≠ 0 →
          stockA.growth_percent =
            ((historical.map (·.close)).getLast hne - (historical.map (·.close)).head hne) /
              (historical.map (·.close)).head hne * 100) := by
  have h : stockA ∈ find_penny_stocks {} [(instA, some histA)] := by
    rw [find_rowsA]
    exact List.mem_singleton.mpr rfl
  exact ⟨h, C5_growth_formula {} [(instA, some histA)] stockA h⟩

/-- C10: the screening run depends only on the first 100 fetched rows
(the slice `instruments[:100]` at line 196); an instrument at position 101 or
later can never influence the result, hence never become a candidate. -/
theorem C10_first_100 (config : AIOrderConfig)
    (rows : List (Instrument × Option (List HistPoint))) :
    find_penny_stocks config rows = find_penny_stocks config (rows.take 100) := by
  unfold find_penny_stocks
  rw [List.take_take]
  norm_num

/-- C4, counterexample: `find_penny_stocks` computes no volume trend. Two runs
whose volume series differ exactly in the spec's `volume_trend` (4/3 versus
the first-volume-0 case the claim says evaluates to 1) but share closes, total
volume and length produce literally identical, nonempty results: nothing in
the engine's behaviour evaluates `last_volume / first_volume`. -/
theorem C4_counterexample :
    find_penny_stocks {} [(instV, some histV1)] = find_penny_stocks {} [(instV, some histV3)] ∧
    find_penny_stocks {} [(instV, some histV1)] ≠ [] ∧
    specVolumeTrend (histV1.map (fun p => p.volume)) ≠
      specVolumeTrend (histV3.map (fun p => p.volume)) := by
  refine ⟨by rw [find_rowsV1, find_rowsV3], by rw [find_rowsV1]; simp, ?_⟩
  norm_num [specVolumeTrend, histV1, histV3]

/-- C4 (amended): the engine computes no `volume_trend` at all; it reads a
volume series only through its mean. Any two row lists that pairwise agree on
instruments, closes, series length and total volume — in particular series
with arbitrarily different `last_volume / first_volume` ratios — yield the
same screening result. -/
theorem C4_no_volume_trend (config : AIOrderConfig)
    (rows1 rows2 : List (Instrument × Option (List HistPoint)))
    (h : List.Forall₂ RowEquiv rows1 rows2) :
    find_penny_stocks config rows1 = find_penny_stocks config rows2 := by
  unfold find_penny_stocks
  rw [filterMap_congr_forall₂ (fun a b hab => screenInstrument_congr hab)
    (List.forall₂_take 100 h)]

theorem C4_no_volume_trend_witness :
    List.Forall₂ RowEquiv [(instV, some histV1)] [(instV, some histV3)] ∧
    find_penny_stocks {} [(instV, some histV1)] = find_penny_stocks {} [(instV, some histV3)] := by
  have h : List.Forall₂ RowEquiv [(instV, some histV1)] [(instV, some histV3)] := by
    refine List.Forall₂.cons ⟨rfl, ?_⟩ List.Forall₂.nil
    show VolEquiv histV1 histV3
    refine ⟨rfl, ?_, rfl⟩
    norm_num [histV1, histV3]
  exact ⟨h, C4_no_volume_trend {} [(instV, some histV1)] [(instV, some histV3)] h⟩

/-- C6, counterexample: pydantic accepts a negative `max_stocks`, and Python's
`[:max_stocks]` slice then drops elements from the end instead of truncating
to `max_stocks`. With `max_stocks = -1` and two candidates the engine returns
1 candidate, which exceeds `min(max_stocks, len(candidates)) = -1`. -/
theorem C6_counterexample :
    ¬ (((find_penny_stocks cfgN rowsN).length : ℤ) ≤
      min cfgN.max_stocks (((rowsN.take 100).filterMap (screenInstrument cfgN)).length : ℤ)) := by
  rw [find_rowsN]
  have h2 : (rowsN.take 100).filterMap (screenInstrument cfgN) = [stockA, stockB] := by
    norm_num [rowsN, List.filterMap_cons, screen_instA_cfgN, screen_instB_cfgN]
  rw [h2]
  norm_num [cfgN]

/-- C6 (amended): for every configuration with `max_stocks ≥ 0` the engine
returns a subset of the filtered candidates, sorted by descending
`growth_percent`, of size at most `min(max_stocks, number of candidates)`;
for negative `max_stocks` the Python slice instead drops `|max_stocks|`
trailing elements, which can exceed that bound. -/
theorem C6_sort_truncate (config : AIOrderConfig)
    (rows : List (Instrument × Option (List HistPoint)))
    (h : 0 ≤ config.max_stocks) :
    List.Sorted growthGE (find_penny_stocks config rows) ∧
    ((find_penny_stocks config rows).length : ℤ) ≤
      min config.max_stocks (((rows.take 100).filterMap (screenInstrument config)).length : ℤ) ∧
    ∀ s ∈ find_penny_stocks config rows,
      s ∈ (rows.take 100).filterMap (screenInstrument config) := by
  refine ⟨?_, ?_, ?_⟩
  · exact List.Pairwise.sublist (pySliceTo_sublist _ _)
      (List.sorted_insertionSort growthGE _)
  · show ((pySliceTo config.max_stocks
      (((rows.take 100).filterMap (screenInstrument config)).insertionSort growthGE)).length : ℤ) ≤ _
    rw [pySliceTo, if_pos h, List.length_take,
      (List.perm_insertionSort growthGE _).length_eq]
    push_cast
    rw [Int.toNat_of_nonneg h]
  · intro s hs
    obtain ⟨row, hr, he⟩ := mem_find_penny_stocks hs
    exact List.mem_filterMap.mpr ⟨row, hr, he⟩

theorem C6_sort_truncate_witness :
    (0 : ℤ) ≤ ({} : AIOrderConfig).max_stocks ∧
    (List.Sorted growthGE (find_penny_stocks {} rowsN) ∧
      ((find_penny_stocks {} rowsN).length : ℤ) ≤
        min ({} : AIOrderConfig).max_stocks
          (((rowsN.take 100).filterMap (screenInstrument {})).length : ℤ) ∧
      ∀ s ∈ find_penny_stocks {} rowsN,
        s ∈ (rowsN.take 100).filterMap (screenInstrument {})) :=
  ⟨by norm_num, C6_sort_truncate {} rowsN (by norm_num)⟩

/-- C9: with any stored credential, any configuration and any gateway
behaviour, a run whose margins lookup reports funds below 1000 returns a
failure (non-200) with no orders and, in particular, attempts no
`kite.place_order` gateway call (lines 249-251 run before the order loop). -/
theorem C9_funds_gate (config : AIOrderConfig)
    (fetch : Option (List (Instrument × Option (List HistPoint))))
    (place : String → ℤ → Option ℕ) (funds : ℚ) (h : funds < 1000) :
    (aiPlaceOrders true (some funds) fetch place config).status ≠ 200 ∧
    (aiPlaceOrders true (some funds) fetch place config).attempted = [] ∧
    (aiPlaceOrders true (some funds) fetch place config).orders = [] := by
  simp only [aiPlaceOrders]
  rw [if_neg (by simp), if_pos h]
  exact ⟨by norm_num, rfl, rfl⟩

theorem C9_funds_gate_witness :
    (500 : ℚ) < 1000 ∧
    ((aiPlaceOrders true (some 500) (some [(instA, some histA)])
        (fun _ _ => some 1) {}).status ≠ 200 ∧
      (aiPlaceOrders true (some 500) (some [(instA, some histA)])
        (fun _ _ => some 1) {}).attempted = [] ∧
      (aiPlaceOrders true (some 500) (some [(instA, some histA)])
        (fun _ _ => some 1) {}).orders = []) :=
  ⟨by norm_num,
    C9_funds_gate {} (some [(instA, some histA)]) (fun _ _ => some 1) 500 (by norm_num)⟩

/-- C7: in every run that reaches the order loop (funds at least 1000,
candidates found, nonzero divisor), the attempted gateway calls are exactly
those derived from the equal split: effective budget
`min(max_investment, funds * 4/5)` divided by
`min(max_stocks, len(candidates))`, the same tentative allocation for every
candidate, independent of its score or price (lines 254 and 263). -/
theorem C7_equal_split (config : AIOrderConfig) (funds : ℚ)
    (rows : List (Instrument × Option (List HistPoint))) (place : String → ℤ → Option ℕ)
    (hf : ¬ funds < 1000) (hne : find_penny_stocks config rows ≠ [])
    (hd : min config.max_stocks ((find_penny_stocks config rows).length : ℤ) ≠ 0) :
    (aiPlaceOrders true (some funds) (some rows) place config).attempted =
      (find_penny_stocks config rows).filterMap (fun s =>
        let effective_budget := min config.max_investment (funds * (4 / 5 : ℚ))
        let per_stock := effective_budget /
          ((min config.max_stocks ((find_penny_stocks config rows).length : ℤ) : ℤ) : ℚ)
        let q := pyInt (per_stock / s.last_price)
        if 1 ≤ q then some (s.tradingsymbol, q) else none) := by
  rw [aiPlaceOrders_run config funds rows place hf hne hd]
  dsimp only
  split_ifs <;> exact placeLoop_attempted place _ _

theorem C7_equal_split_witness :
    ¬ (10000 : ℚ) < 1000 ∧ find_penny_stocks cfgC rows8 ≠ [] ∧
    min cfgC.max_stocks ((find_penny_stocks cfgC rows8).length : ℤ) ≠ 0 ∧
    (aiPlaceOrders true (some 10000) (some rows8) (fun _ _ => some 1) cfgC).attempted =
      (find_penny_stocks cfgC rows8).filterMap (fun s =>
        let effective_budget := min cfgC.max_investment ((10000 : ℚ) * (4 / 5 : ℚ))
        let per_stock := effective_budget /
          ((min cfgC.max_stocks ((find_penny_stocks cfgC rows8).length : ℤ) : ℤ) : ℚ)
        let q := pyInt (per_stock / s.last_price)
        if 1 ≤ q then some (s.tradingsymbol, q) else none) := by
  have hne : find_penny_stocks cfgC rows8 ≠ [] := by
    rw [find_rows8]
    simp
  have hd : min cfgC.max_stocks ((find_penny_stocks cfgC rows8).length : ℤ) ≠ 0 := by
    rw [find_rows8]
    norm_num [cfgC]
  exact ⟨by norm_num, hne, hd,
    C7_equal_split cfgC 10000 rows8 (fun _ _ => some 1) (by norm_num) hne hd⟩

/-- C8: in every run that reaches the order loop, the final order list is
exactly the floor-semantics one: each candidate's share count is
`⌊per_candidate_allocation / last_price⌋`; a candidate whose floor share
count is below 1 (in particular 0) is silently dropped and the loop
continues; and every placed order carries a quantity of at least 1 (hence a
non-negative integer). Python's `int()` truncation coincides with the floor
on every included candidate. -/
theorem C8_floor_shares (config : AIOrderConfig) (funds : ℚ)
    (rows : List (Instrument × Option (List HistPoint))) (place : String → ℤ → Option ℕ)
    (hf : ¬ funds < 1000) (hne : find_penny_stocks config rows ≠ [])
    (hd : min config.max_stocks ((find_penny_stocks config rows).length : ℤ) ≠ 0) :
    (aiPlaceOrders true (some funds) (some rows) place config).orders =
      (find_penny_stocks config rows).filterMap (fun s =>
        let per_stock := min config.max_investment (funds * (4 / 5 : ℚ)) /
          ((min config.max_stocks ((find_penny_stocks config rows).length : ℤ) : ℤ) : ℚ)
        let q := ⌊per_stock / s.last_price⌋
        if 1 ≤ q then (place s.tradingsymbol q).map
          (fun order_id => ⟨s.tradingsymbol, q, order_id⟩) else none) ∧
    ∀ o ∈ (aiPlaceOrders true (some funds) (some rows) place config).orders,
      1 ≤ o.quantity := by
  have key : (aiPlaceOrders true (some funds) (some rows) place config).orders =
      (find_penny_stocks config rows).filterMap (fun s =>
        let per_stock := min config.max_investment (funds * (4 / 5 : ℚ)) /
          ((min config.max_stocks ((find_penny_stocks config rows).length : ℤ) : ℤ) : ℚ)
        let q := ⌊per_stock / s.last_price⌋
        if 1 ≤ q then (place s.tradingsymbol q).map
          (fun order_id => ⟨s.tradingsymbol, q, order_id⟩) else none) := by
    have base : (aiPlaceOrders true (some funds) (some rows) place config).orders =
        (find_penny_stocks config rows).filterMap (fun s =>
          let per_stock := min config.max_investment (funds * (4 / 5 : ℚ)) /
            ((min config.max_stocks ((find_penny_stocks config rows).length : ℤ) : ℤ) : ℚ)
          let q := pyInt (per_stock / s.last_price)
          if 1 ≤ q then (place s.tradingsymbol q).map
            (fun order_id => ⟨s.tradingsymbol, q, order_id⟩) else none) := by
      rw [aiPlaceOrders_run config funds rows place hf hne hd]
      dsimp only
      split_ifs with h0
      · rw [← placeLoop_orders place _ _]
        exact h0.symm
      · exact placeLoop_orders place _ _
    rw [base]
    apply List.filterMap_congr
    intro s _
    dsimp only
    by_cases hq : 1 ≤ ⌊min config.max_investment (funds * (4 / 5 : ℚ)) /
        ((min config.max_stocks ((find_penny_stocks config rows).length : ℤ) : ℤ) : ℚ) /
        s.last_price⌋
    · rw [if_pos hq, if_pos ((one_le_pyInt_iff _).mpr hq), pyInt_eq_floor_of_one_le hq]
    · rw [if_neg hq, if_neg (fun hc => hq ((one_le_pyInt_iff _).mp hc))]
  refine ⟨key, ?_⟩
  intro o ho
  rw [key] at ho
  obtain ⟨s, _, he⟩ := List.mem_filterMap.mp ho
  dsimp only at he
  by_cases hq : 1 ≤ ⌊min config.max_investment (funds * (4 / 5 : ℚ)) /
      ((min config.max_stocks ((find_penny_stocks config rows).length : ℤ) : ℤ) : ℚ) /
      s.last_price⌋
  · rw [if_pos hq] at he
    obtain ⟨oid, _, hoe⟩ := Option.map_eq_some'.mp he
    rw [← hoe]
    exact hq
  · rw [if_neg hq] at he
    exact absurd he (by simp)

theorem C8_floor_shares_witness :
    ¬ (10000 : ℚ) < 1000 ∧ find_penny_stocks cfgC rows8 ≠ [] ∧
    min cfgC.max_stocks ((find_penny_stocks cfgC rows8).length : ℤ) ≠ 0 ∧
    ((aiPlaceOrders true (some 10000) (some rows8) (fun _ _ => some 1) cfgC).orders =
      (find_penny_stocks cfgC rows8).filterMap (fun s =>
        let per_stock := min cfgC.max_investment ((10000 : ℚ) * (4 / 5 : ℚ)) /
          ((min cfgC.max_stocks ((find_penny_stocks cfgC rows8).length : ℤ) : ℤ) : ℚ)
        let q := ⌊per_stock / s.last_price⌋
        if 1 ≤ q then (some 1).map
          (fun order_id => (⟨s.tradingsymbol, q, order_id⟩ : OrderPlaced)) else none) ∧
      ∀ o ∈ (aiPlaceOrders true (some 10000) (some rows8) (fun _ _ => some 1) cfgC).orders,
        1 ≤ o.quantity) := by
  have hne : find_penny_stocks cfgC rows8 ≠ [] := by
    rw [find_rows8]
    simp
  have hd : min cfgC.max_stocks ((find_penny_stocks cfgC rows8).length : ℤ) ≠ 0 := by
    rw [find_rows8]
    norm_num [cfgC]
  exact ⟨by norm_num, hne, hd,
    C8_floor_shares cfgC 10000 rows8 (fun _ _ => some 1) (by norm_num) hne hd⟩

/-- C1 (code bug): the `except Exception` handler at line 303 also catches
the `HTTPException`s raised with status 400 and 404 inside the `try` and
re-raises them as 500. Evaluating the endpoint shows all three documented
failure modes answer 500, not the statuses the code's own `raise` sites (and
the spec) declare: insufficient funds (400 intended), no candidates found
(404 intended), and candidates found but no order placed (400 intended). -/
theorem C1_swallowed_statuses :
    (aiPlaceOrders true (some 500) (some [(instA, some histA)])
      (fun _ _ => some 1) {}).status = 500 ∧
    (aiPlaceOrders true (some 5000) (some []) (fun _ _ => some 1) {}).status = 500 ∧
    (aiPlaceOrders true (some 1500) (some [(instC, some histB)])
      (fun _ _ => some 1) cfgC).status = 500 ∧
    (aiPlaceOrders true (some 1500) (some [(instC, some histB)])
      (fun _ _ => some 1) cfgC).orders = [] := by
  have h1 : (aiPlaceOrders true (some 500) (some [(instA, some histA)])
      (fun _ _ => some 1) {}).status = 500 := by
    simp only [aiPlaceOrders]
    rw [if_neg (by simp), if_pos (by norm_num : (500 : ℚ) < 1000)]
  have hempty : find_penny_stocks {} ([] : List (Instrument × Option (List HistPoint))) = [] :=
    rfl
  have h2 : (aiPlaceOrders true (some 5000) (some []) (fun _ _ => some 1) {}).status = 500 := by
    simp only [aiPlaceOrders]
    rw [if_neg (by simp), if_neg (by norm_num : ¬ (5000 : ℚ) < 1000), if_pos hempty]
  have hrun := aiPlaceOrders_run cfgC 1500 [(instC, some histB)] (fun _ _ => some 1)
    (by norm_num) (by rw [find_rowsC]; simp) (by rw [find_rowsC]; norm_num [cfgC])
  have hq : pyInt (min cfgC.max_investment ((1500 : ℚ) * (4 / 5)) /
      ((min cfgC.max_stocks (([(⟨"CCC", 2900, 100, 20000⟩ : PennyStock)] :
        List PennyStock).length : ℤ) : ℤ) : ℚ) / (2900 : ℚ)) = 0 := by
    norm_num [cfgC, pyInt]
    decide
  have h3 : aiPlaceOrders true (some 1500) (some [(instC, some histB)])
      (fun _ _ => some 1) cfgC = ⟨500, [], []⟩ := by
    rw [hrun]
    dsimp only
    rw [find_rowsC]
    rw [show placeLoop (fun _ _ => some 1)
        (min cfgC.max_investment ((1500 : ℚ) * (4 / 5)) /
          ((min cfgC.max_stocks (([(⟨"CCC", 2900, 100, 20000⟩ : PennyStock)] :
            List PennyStock).length : ℤ) : ℤ) : ℚ))
        [(⟨"CCC", 2900, 100, 20000⟩ : PennyStock)] = ([], []) from by
      simp only [placeLoop]
      rw [if_pos (by rw [hq]; norm_num)]]
    norm_num
  exact ⟨h1, h2, by rw [h3], by rw [h3]⟩
